import Mathlib

/-!
Shallow embedding of the `pomodoro` repository (Rust) for verifying its
natural-language specification.

Sources embedded:
* `src/app/pomodoro.rs` — the `StateType` enum, `State` struct, the `next`
  phase-transition method and the `progress_duration` timed-wait loop of
  `Pomodoro`, together with the deterministic `FakeClock` semantics of the
  test module (a clock whose `sleep` records the request and advances the
  simulated instant by exactly the requested duration).
* `src/app/console.rs` — the key-event handler of `register_listeners`.
* `src/app/conf.rs` — `Config`, `Config::new_default`, `Config::build`,
  `Config::parse_param`, `Config::parse_string` and `Config::help_text`.

Durations are modelled in whole seconds (`Duration::as_secs`) or in
milliseconds where the 100 ms polling tick matters.  The `u32` counter
`cycles_completed` is modelled as `Nat`: no execution of the program can
perform the 2^32 work phases needed to make wrap-around observable, and the
debug semantics of Rust's `+= 1` is the mathematical successor.
-/

/-- Enum `StateType` from pomodoro.rs: the three phases of the timer. -/
inductive StateType where
  | Work
  | ShortBreak
  | LongBreak
deriving DecidableEq, Repr

/-- Struct `Config` from conf.rs.  Durations are in whole seconds
(`Duration::from_mins(m)` is `m * 60` seconds). -/
structure Config where
  work_duration : Nat
  short_break_duration : Nat
  long_break_duration : Nat
  cycles_before_long_break : Nat
deriving DecidableEq, Repr

/-- Function `Config::new_default`: 25 min work, 5 min short break, 15 min long break,
4 cycles before a long break. -/
def Config.new_default : Config :=
  { work_duration := 25 * 60
    short_break_duration := 5 * 60
    long_break_duration := 15 * 60
    cycles_before_long_break := 4 }

/-- Struct `State` from pomodoro.rs.  The two `Arc<AtomicBool>` flags are modelled by
their current boolean values; `Pomodoro::new` (called from main.rs) starts
both at `false`. -/
structure State where
  state_type : StateType
  cycles_completed : Nat
  pause : Bool
  exit : Bool
deriving DecidableEq, Repr

/-- The state built by `Pomodoro::new`: `cycles_completed: 0`,
`state_type: StateType::Work`, and both shared flags freshly `false`
(`AtomicBool::new(false)` in main.rs). -/
def initState : State :=
  { state_type := .Work, cycles_completed := 0, pause := false, exit := false }

/-- Method `Pomodoro::next` from pomodoro.rs lines 149-163: from `Work`, increment
`cycles_completed` and go to `LongBreak` exactly when the incremented counter
equals `cycles_before_long_break`, else to `ShortBreak`; from either break go
back to `Work`. -/
def next (cfg : Config) (s : State) : State :=
  match s.state_type with
  | .Work =>
      let c := s.cycles_completed + 1
      if c = cfg.cycles_before_long_break then
        { s with cycles_completed := c, state_type := .LongBreak }
      else
        { s with cycles_completed := c, state_type := .ShortBreak }
  | .ShortBreak => { s with state_type := .Work }
  | .LongBreak => { s with state_type := .Work }

/-- The sequence of timer states produced by repeated `next` calls from the
initial state (the state after `k` calls). -/
def trace (cfg : Config) : Nat → State
  | 0 => initState
  | k + 1 => next cfg (trace cfg k)

/-- The default configuration with `cycles_before_long_break` set to 2, as in
the repository's own test configuration. -/
def cfg2 : Config :=
  { Config.new_default with cycles_before_long_break := 2 }

/-! ## The timed-wait loop `progress_duration` (pomodoro.rs lines 109-147)

The loop is driven by three external inputs that the engine only observes:

* `exitS k` / `pauseS k`: the value of the shared `exit` / `pause` atomic at
  the moment iteration `k` of the loop reads it (the input listener mutates
  these concurrently; the engine's reads at iteration boundaries are the only
  points where their values matter).
* `er k`: the value of `start.elapsed()` — i.e. `Instant::now() - start`
  measured against the **system** clock — in milliseconds, at the point where
  iteration `k` computes `elapsed`.  Note the source computes elapsed with
  `start.elapsed()`, not with `self.clock.now()`, so this schedule belongs to
  real time and is *not* derived from the injected `Clock`'s sleeps.  For the
  production `SystemClock` (where `sleep` really blocks for the tick and loop
  overhead is negligible) real time advances by exactly one 100 ms tick per
  iteration, which is the schedule `erSys` below.

The simulation records the observable effects: every `clock.sleep` request
(the injected clock — for `FakeClock` this list is exactly `sleeps`), every
`status.update` call, the progress-bar bookkeeping (`last_shown`, total bar
increments), and the number of `notifier.alert_state_change` calls.  The
loop itself can run forever (e.g. paused forever), so the simulation takes
fuel and returns `none` when the fuel is exhausted before the loop exits. -/

/-- Observable effects of one `progress_duration` call: the recorded
`clock.sleep` requests in ms, the number of `status.update` calls, how many
of those came from the paused branch, the `last_shown` counter and total
progress-bar increments, and the number of notifier alerts. -/
structure SimAcc where
  sleeps : List Nat
  updates : Nat
  pausedTicks : Nat
  lastShown : Nat
  barPos : Nat
  alerts : Nat
deriving DecidableEq, Repr

/-- The accumulator at loop entry: nothing observed yet. -/
def simInit : SimAcc :=
  { sleeps := [], updates := 0, pausedTicks := 0, lastShown := 0, barPos := 0, alerts := 0 }

/-- The fixed polling tick of pomodoro.rs: `Duration::from_millis(100)`. -/
def tickMs : Nat := 100

/-- The body of the `loop` in `progress_duration` (pomodoro.rs lines 119-144),
iterated with fuel.  `k` is the iteration index, `total_secs` the phase
duration in whole seconds (`progress_duration.as_secs()`).  Each iteration:
check `exit` and break; else if `pause`, update status, sleep one tick and
re-loop; else update status, sleep one tick, compute
`elapsed = start.elapsed().as_secs() = er k / 1000` and break when
`elapsed >= total_secs`, otherwise advance the progress bar by the number of
newly completed whole seconds. -/
def progressLoop (exitS pauseS : Nat → Bool) (er : Nat → Nat) (total_secs : Nat) :
    Nat → Nat → SimAcc → Option SimAcc
  | 0, _, _ => none
  | fuel + 1, k, acc =>
    if exitS k then
      some acc
    else if pauseS k then
      progressLoop exitS pauseS er total_secs fuel (k + 1)
        { acc with
            updates := acc.updates + 1
            pausedTicks := acc.pausedTicks + 1
            sleeps := acc.sleeps ++ [tickMs] }
    else
      let acc2 := { acc with updates := acc.updates + 1, sleeps := acc.sleeps ++ [tickMs] }
      let elapsed := er k / 1000
      if total_secs ≤ elapsed then
        some acc2
      else if acc2.lastShown < elapsed then
        progressLoop exitS pauseS er total_secs fuel (k + 1)
          { acc2 with barPos := acc2.barPos + (elapsed - acc2.lastShown), lastShown := elapsed }
      else
        progressLoop exitS pauseS er total_secs fuel (k + 1) acc2

/-- Method `progress_duration` (pomodoro.rs lines 109-147): run the loop from an
empty accumulator, then — unconditionally, on early exit as on completion —
call `notifier.alert_state_change()` once (line 146 sits after the loop on
every path out of it). -/
def progress_duration (exitS pauseS : Nat → Bool) (er : Nat → Nat)
    (total_secs fuel : Nat) : Option SimAcc :=
  (progressLoop exitS pauseS er total_secs fuel 0 simInit).map
    (fun a => { a with alerts := a.alerts + 1 })

/-- The `start.elapsed()` schedule of the production `SystemClock` with
negligible loop overhead: at iteration `k` the loop has performed `k + 1`
real 100 ms sleeps, so real elapsed time is `100 * (k + 1)` ms. -/
def erSys : Nat → Nat := fun k => tickMs * (k + 1)

/-- Method `progress_duration` viewed together with the engine state: the method
takes `&self` (a shared borrow), so `state_type` and `cycles_completed` are
read-only for its whole duration; the returned `State` is the value of those
fields when the call returns. -/
def progress_duration_st (s : State) (exitS pauseS : Nat → Bool) (er : Nat → Nat)
    (total_secs fuel : Nat) : Option (SimAcc × State) :=
  (progress_duration exitS pauseS er total_secs fuel).map (fun a => (a, s))

/-! ## The key-event handler of `register_listeners` (console.rs lines 52-70) -/

/-- A key event as seen by the listener: `crossterm`'s `Event::Key` carrying a
character, or any other event (function keys, non-key events, ...). -/
inductive KeyEvent where
  | char (c : Char)
  | other
deriving DecidableEq, Repr

/-- The two shared atomic flags as the listener sees them. -/
structure ListenerFlags where
  pause : Bool
  exit : Bool
deriving DecidableEq, Repr

/-- Outcome of handling one key event: the flag values after the handler,
whether the polling loop executes `break`, and — when the handler called
`update_paused` — the pause value it displayed. -/
structure KeyOutcome where
  flags : ListenerFlags
  brk : Bool
  refresh : Option Bool
deriving DecidableEq, Repr

/-- The `match event.code` of console.rs lines 55-65: `Char('q')` flips the
exit flag (`fetch_xor(true)`) and breaks out of the polling loop;
`Char('p') | Char('P')` flips the pause flag, keeps polling, and immediately
calls `update_paused(!paused)` where `paused` is the value `fetch_xor`
returned (the pre-flip value), so the refreshed line shows the new pause
state; every other key is ignored. -/
def handle_key_event : KeyEvent → ListenerFlags → KeyOutcome
  | .char c, f =>
    if c = 'q' then
      { flags := { f with exit := xor f.exit true }, brk := true, refresh := none }
    else if c = 'p' ∨ c = 'P' then
      { flags := { f with pause := xor f.pause true }, brk := false,
        refresh := some (!f.pause) }
    else
      { flags := f, brk := false, refresh := none }
  | .other, f => { flags := f, brk := false, refresh := none }

/-! ## Configuration parsing (conf.rs)

Strings are inspected through their character lists, which mirrors Rust's
byte-level parsing for the ASCII flags and digits involved. -/

/-- Rust's `str::parse::<u64>()` for the inputs reachable here: an optional
leading `+`, then one or more ASCII digits, value below `2^64`; anything else
(empty string, other characters, overflow) fails. -/
def parse_u64 (s : String) : Option Nat :=
  let cs :=
    match s.data with
    | '+' :: rest => rest
    | cs => cs
  if cs ≠ [] ∧ cs.all (fun c => c.isDigit) then
    let v := cs.foldl (fun a c => a * 10 + (c.toNat - 48)) 0
    if v < 2 ^ 64 then some v else none
  else
    none

/-- The `ConfigParam` enum of conf.rs.  Durations are already converted to
seconds (`Duration::from_mins(m) = m * 60` seconds). -/
inductive ConfigParam where
  | WorkDuration (secs : Nat)
  | ShortBreakDuration (secs : Nat)
  | LongBreakDuration (secs : Nat)
  | CyclesBeforeLongBreak (cycles : Nat)
  | Help
deriving DecidableEq, Repr

/-- The value pipeline of `parse_param`/`parse_string`:
`value_option.ok_or("Expected value for parameter: {key}")` chained with
`val.parse::<u64>().map_err(|_| "Failed to parse value: {val}")`. -/
def parse_value (key : String) (value_option : Option String) : Except String Nat :=
  match value_option with
  | none => .error ("Expected value for parameter: " ++ key)
  | some v =>
    match parse_u64 v with
    | none => .error ("Failed to parse value: " ++ v)
    | some n => .ok n

/-- Function `Config::parse_param` (conf.rs lines 58-79).  The help arms never force
the lazily-built value result; the duration arms convert minutes to seconds
via `Duration::from_mins`; the cycles arm truncates `u64` to `u32`
(`as u32`). -/
def parse_param (key : String) (value_option : Option String) : Except String ConfigParam :=
  if key = "--help" ∨ key = "-h" then
    .ok .Help
  else if key = "--work" ∨ key = "-w" then
    (parse_value key value_option).map (fun n => .WorkDuration (n * 60))
  else if key = "--short-break" ∨ key = "-s" then
    (parse_value key value_option).map (fun n => .ShortBreakDuration (n * 60))
  else if key = "--long-break" ∨ key = "-l" then
    (parse_value key value_option).map (fun n => .LongBreakDuration (n * 60))
  else if key = "--cycles" ∨ key = "-c" then
    (parse_value key value_option).map (fun n => .CyclesBeforeLongBreak (n % 2 ^ 32))
  else
    .error ("Unknown parameter: " ++ key)

/-- Text `Config::help_text` (conf.rs lines 83-91), returned through the error
channel on a help request. -/
def help_text : String :=
  "Usage: pomodorro-rust [options]:\n" ++
  "    -h, --help                  Show this help message,\n" ++
  "    -w, --work <minutes>        Set work duration (default: 25),\n" ++
  "    -s, --short-break <minutes> Set short break duration (default: 5),\n" ++
  "    -l, --long-break <minutes>  Set long break duration (default: 25),\n" ++
  "    -c, --cycles <number>       Set number of cycles before long break (default 4)\n" ++
  "        "

/-- Application of one parsed non-help parameter to the accumulating
configuration (the `match config_option` arms of `Config::build`). -/
def applyParam (cfg : Config) : ConfigParam → Config
  | .WorkDuration d => { cfg with work_duration := d }
  | .ShortBreakDuration d => { cfg with short_break_duration := d }
  | .LongBreakDuration d => { cfg with long_break_duration := d }
  | .CyclesBeforeLongBreak c => { cfg with cycles_before_long_break := c }
  | .Help => cfg

/-- The `while let Some(key) = param_iter.next()` loop of `Config::build`:
each round consumes the key and (when present) the following argument as its
value, propagates `parse_param` errors, turns `Help` into
`Err(help_text())`, and otherwise folds the parameter into the
configuration. -/
def build_go (cfg : Config) : List String → Except String Config
  | [] => .ok cfg
  | [key] =>
    match parse_param key none with
    | .error e => .error e
    | .ok .Help => .error help_text
    | .ok p => build_go (applyParam cfg p) []
  | key :: v :: rest =>
    match parse_param key (some v) with
    | .error e => .error e
    | .ok .Help => .error help_text
    | .ok p => build_go (applyParam cfg p) rest

/-- Function `Config::build` (conf.rs lines 21-48): start from the defaults, skip the
first argument (the program name, `args.iter().skip(1)`), and fold the
remaining arguments as key/value pairs. -/
def build (args : List String) : Except String Config :=
  build_go Config.new_default (args.drop 1)

/-- The ten flag spellings `parse_param` recognizes. -/
def knownFlags : List String :=
  ["--help", "-h", "--work", "-w", "--short-break", "-s", "--long-break", "-l",
   "--cycles", "-c"]

/-- The eight flags that require a following value. -/
def valueFlags : List String :=
  ["--work", "-w", "--short-break", "-s", "--long-break", "-l", "--cycles", "-c"]

/-! ## Helper lemmas about `next` and `trace` -/

lemma trace_succ (cfg : Config) (k : Nat) :
    trace cfg (k + 1) = next cfg (trace cfg k) := rfl

lemma next_work (cfg : Config) (s : State) (h : s.state_type = .Work) :
    next cfg s =
      if s.cycles_completed + 1 = cfg.cycles_before_long_break then
        { s with cycles_completed := s.cycles_completed + 1, state_type := .LongBreak }
      else
        { s with cycles_completed := s.cycles_completed + 1, state_type := .ShortBreak } := by
  obtain ⟨st, c, p, e⟩ := s
  simp only at h
  subst h
  rfl

lemma next_shortBreak (cfg : Config) (s : State) (h : s.state_type = .ShortBreak) :
    next cfg s = { s with state_type := .Work } := by
  obtain ⟨st, c, p, e⟩ := s
  simp only at h
  subst h
  rfl

lemma next_longBreak (cfg : Config) (s : State) (h : s.state_type = .LongBreak) :
    next cfg s = { s with state_type := .Work } := by
  obtain ⟨st, c, p, e⟩ := s
  simp only at h
  subst h
  rfl

/-- A `LongBreak` state in the trace always carries
`cycles_completed = cycles_before_long_break`: the only transition producing
`LongBreak` is the `Work` arm under the equality test. -/
lemma lb_cycles (cfg : Config) :
    ∀ i, (trace cfg i).state_type = .LongBreak →
      (trace cfg i).cycles_completed = cfg.cycles_before_long_break := by
  intro i h
  match i with
  | 0 => simp [trace, initState] at h
  | k + 1 =>
    rw [trace_succ] at h ⊢
    cases hs : (trace cfg k).state_type with
    | Work =>
      rw [next_work _ _ hs] at h ⊢
      by_cases hc :
          (trace cfg k).cycles_completed + 1 = cfg.cycles_before_long_break
      · rw [if_pos hc]
        simpa using hc
      · rw [if_neg hc] at h
        simp at h
    | ShortBreak =>
      rw [next_shortBreak _ _ hs] at h
      simp at h
    | LongBreak =>
      rw [next_longBreak _ _ hs] at h
      simp at h

/-- Once the counter has reached the threshold and the phase is not
`LongBreak`, one step preserves both facts: the counter only grows, and the
equality test `cycles_completed + 1 = cycles_before_long_break` can never
succeed again. -/
lemma q_step (cfg : Config) (s : State)
    (h1 : cfg.cycles_before_long_break ≤ s.cycles_completed)
    (h2 : s.state_type ≠ .LongBreak) :
    cfg.cycles_before_long_break ≤ (next cfg s).cycles_completed ∧
      (next cfg s).state_type ≠ .LongBreak := by
  cases hs : s.state_type with
  | Work =>
    rw [next_work _ _ hs]
    have hc : s.cycles_completed + 1 ≠ cfg.cycles_before_long_break := by omega
    rw [if_neg hc]
    exact ⟨by simp; omega, by simp⟩
  | ShortBreak =>
    rw [next_shortBreak _ _ hs]
    exact ⟨by simpa using h1, by simp⟩
  | LongBreak => exact absurd hs h2

/-- Lemma `q_step`, iterated along the trace. -/
lemma q_trace (cfg : Config) (m : Nat)
    (h1 : cfg.cycles_before_long_break ≤ (trace cfg m).cycles_completed)
    (h2 : (trace cfg m).state_type ≠ .LongBreak) :
    ∀ d, cfg.cycles_before_long_break ≤ (trace cfg (m + d)).cycles_completed ∧
      (trace cfg (m + d)).state_type ≠ .LongBreak := by
  intro d
  induction d with
  | zero => exact ⟨h1, h2⟩
  | succ n ih =>
    have hstep := q_step cfg (trace cfg (m + n)) ih.1 ih.2
    have heq : trace cfg (m + (n + 1)) = next cfg (trace cfg (m + n)) := by
      rw [Nat.add_succ, trace_succ]
    rw [heq]
    exact hstep

/-- C3: along every trace from the initial state, `cycles_completed` grows by
exactly 1 on each `Work` transition (whose target is decided by the equality
test against `cycles_before_long_break`) and is unchanged — never decremented
or reset — on every `ShortBreak`/`LongBreak` transition; consequently once a
`LongBreak` has occurred, no later state is ever `LongBreak` again. -/
theorem cycles_counter_invariant (cfg : Config) :
    (∀ k, ((trace cfg k).state_type = .Work →
        (trace cfg (k + 1)).cycles_completed = (trace cfg k).cycles_completed + 1 ∧
        (trace cfg (k + 1)).state_type =
          (if (trace cfg k).cycles_completed + 1 = cfg.cycles_before_long_break
            then StateType.LongBreak else StateType.ShortBreak)) ∧
      ((trace cfg k).state_type ≠ .Work →
        (trace cfg (k + 1)).cycles_completed = (trace cfg k).cycles_completed ∧
        (trace cfg (k + 1)).state_type = .Work)) ∧
    (∀ i j, i < j → (trace cfg i).state_type = .LongBreak →
      (trace cfg j).state_type ≠ .LongBreak) := by
  constructor
  · intro k
    constructor
    · intro hw
      rw [trace_succ, next_work _ _ hw]
      by_cases hc :
          (trace cfg k).cycles_completed + 1 = cfg.cycles_before_long_break
      · rw [if_pos hc, if_pos hc]
        exact ⟨rfl, rfl⟩
      · rw [if_neg hc, if_neg hc]
        exact ⟨rfl, rfl⟩
    · intro hnw
      cases hs : (trace cfg k).state_type with
      | Work => exact absurd hs hnw
      | ShortBreak => rw [trace_succ, next_shortBreak _ _ hs]; exact ⟨rfl, rfl⟩
      | LongBreak => rw [trace_succ, next_longBreak _ _ hs]; exact ⟨rfl, rfl⟩
  · intro i j hij hlb
    have hN := lb_cycles cfg i hlb
    have h1 : trace cfg (i + 1) = { trace cfg i with state_type := .Work } := by
      rw [trace_succ, next_longBreak _ _ hlb]
    have hq := q_trace cfg (i + 1)
      (by rw [h1]; simpa using hN.ge)
      (by rw [h1]; simp)
      (j - (i + 1))
    have hidx : i + 1 + (j - (i + 1)) = j := by omega
    rw [hidx] at hq
    exact hq.2

/-- C3 witness: with `cycles_before_long_break = 2` the trace reaches
`LongBreak` at step 3 and, by the invariant, never again at step 5. -/
theorem cycles_counter_invariant_witness :
    (trace cfg2 3).state_type = .LongBreak ∧
      (trace cfg2 5).state_type ≠ .LongBreak :=
  ⟨by decide, (cycles_counter_invariant cfg2).2 3 5 (by decide) (by decide)⟩

/-! ## The Work/ShortBreak alternation up to the first LongBreak (C4) -/

/-- Even positions of the trace before the first long break: after `2 * i`
steps (`i < cycles_before_long_break`) the timer is in `Work` with `i`
completed cycles. -/
lemma trace_even (cfg : Config) :
    ∀ i, i < cfg.cycles_before_long_break →
      trace cfg (2 * i) =
        { state_type := .Work, cycles_completed := i, pause := false, exit := false } := by
  intro i
  induction i with
  | zero => intro _; rfl
  | succ n ih =>
    intro h
    have he := ih (by omega)
    have hodd : trace cfg (2 * n + 1) =
        { state_type := .ShortBreak, cycles_completed := n + 1,
          pause := false, exit := false } := by
      rw [trace_succ, he]
      have hne : n + 1 ≠ cfg.cycles_before_long_break := by omega
      simp [next, hne]
    have h2 : 2 * (n + 1) = 2 * n + 1 + 1 := by ring
    rw [h2, trace_succ, hodd]
    simp [next]

/-- Odd positions of the trace before the first long break: after `2 * i + 1`
steps (`i + 1 < cycles_before_long_break`) the timer is in `ShortBreak` with
`i + 1` completed cycles. -/
lemma trace_odd (cfg : Config) (i : Nat) (h : i + 1 < cfg.cycles_before_long_break) :
    trace cfg (2 * i + 1) =
      { state_type := .ShortBreak, cycles_completed := i + 1,
        pause := false, exit := false } := by
  rw [trace_succ, trace_even cfg i (by omega)]
  have hne : i + 1 ≠ cfg.cycles_before_long_break := by omega
  simp [next, hne]

/-- The first `LongBreak`: step `2 * cycles_before_long_break - 1`. -/
lemma trace_first_lb (cfg : Config) (h : 1 ≤ cfg.cycles_before_long_break) :
    trace cfg (2 * cfg.cycles_before_long_break - 1) =
      { state_type := .LongBreak,
        cycles_completed := cfg.cycles_before_long_break,
        pause := false, exit := false } := by
  have h2 : 2 * cfg.cycles_before_long_break - 1 =
      2 * (cfg.cycles_before_long_break - 1) + 1 := by omega
  rw [h2, trace_succ, trace_even cfg (cfg.cycles_before_long_break - 1) (by omega)]
  have heq : cfg.cycles_before_long_break - 1 + 1 = cfg.cycles_before_long_break := by
    omega
  simp [next, heq]

/-- Counting odd numbers below `n`. -/
lemma length_filter_odd_range (n : Nat) :
    ((List.range n).filter (fun j => decide (j % 2 = 1))).length = n / 2 := by
  induction n with
  | zero => rfl
  | succ m ih =>
    rw [List.range_succ, List.filter_append, List.length_append, ih]
    by_cases hm : m % 2 = 1
    · simp [hm]
      omega
    · simp [hm]
      omega

/-- C4: for every configuration with `cycles_before_long_break = N ≥ 1`, the
trace from the initial state alternates `Work` (even steps, `i` cycles) and
`ShortBreak` (odd steps, `i + 1` cycles) until step `2N - 1`, which is the
first `LongBreak` and carries `cycles_completed = N`; no earlier step is a
`LongBreak`, and exactly `N - 1` of the steps before it are `ShortBreak`s. -/
theorem phase_sequence_short_breaks (cfg : Config)
    (h : 1 ≤ cfg.cycles_before_long_break) :
    (∀ i, i < cfg.cycles_before_long_break →
      (trace cfg (2 * i)).state_type = .Work ∧
        (trace cfg (2 * i)).cycles_completed = i) ∧
    (∀ i, i + 1 < cfg.cycles_before_long_break →
      (trace cfg (2 * i + 1)).state_type = .ShortBreak ∧
        (trace cfg (2 * i + 1)).cycles_completed = i + 1) ∧
    ((trace cfg (2 * cfg.cycles_before_long_break - 1)).state_type = .LongBreak ∧
      (trace cfg (2 * cfg.cycles_before_long_break - 1)).cycles_completed =
        cfg.cycles_before_long_break) ∧
    (∀ j, j < 2 * cfg.cycles_before_long_break - 1 →
      (trace cfg j).state_type ≠ .LongBreak) ∧
    ((List.range (2 * cfg.cycles_before_long_break - 1)).filter
        (fun j => decide ((trace cfg j).state_type = .ShortBreak))).length =
      cfg.cycles_before_long_break - 1 := by
  refine ⟨?_, ?_, ?_, ?_, ?_⟩
  · intro i hi
    rw [trace_even cfg i hi]
    exact ⟨rfl, rfl⟩
  · intro i hi
    rw [trace_odd cfg i hi]
    exact ⟨rfl, rfl⟩
  · rw [trace_first_lb cfg h]
    exact ⟨rfl, rfl⟩
  · intro j hj
    rcases Nat.even_or_odd' j with ⟨m, rfl | rfl⟩
    · rw [trace_even cfg m (by omega)]
      simp
    · rw [trace_odd cfg m (by omega)]
      simp
  · have hcong : ∀ j ∈ List.range (2 * cfg.cycles_before_long_break - 1),
        (decide ((trace cfg j).state_type = .ShortBreak)) = (decide (j % 2 = 1)) := by
      intro j hj
      rw [List.mem_range] at hj
      rcases Nat.even_or_odd' j with ⟨m, rfl | rfl⟩
      · rw [trace_even cfg m (by omega), decide_eq_decide]
        simp
      · rw [trace_odd cfg m (by omega), decide_eq_decide]
        simp
        omega
    rw [List.filter_congr hcong, length_filter_odd_range]
    omega

/-- C4 witness: with `cycles_before_long_break = 2` the first three `next`
calls yield `ShortBreak`, `Work`, `LongBreak`, with `cycles_completed`
ending at 2. -/
theorem phase_sequence_short_breaks_witness :
    (trace cfg2 1).state_type = .ShortBreak ∧
      (trace cfg2 2).state_type = .Work ∧
      (trace cfg2 3).state_type = .LongBreak ∧
      (trace cfg2 3).cycles_completed = 2 := by
  have H := phase_sequence_short_breaks cfg2 (by decide)
  exact ⟨(H.2.1 0 (by decide)).1, (H.1 1 (by decide)).1, H.2.2.1.1, H.2.2.1.2⟩

/-! ## C5: `next` is a pure deterministic function of the state -/

/-- C5: `next` depends only on `(state_type, cycles_completed,
cycles_before_long_break)` and is deterministic (equal states give equal
results); from `Work` it increments the counter and moves to `LongBreak`
exactly when the incremented counter equals `cycles_before_long_break`, else
to `ShortBreak`; from either break it moves to `Work`. -/
theorem next_pure_transition (cfg : Config) (s t : State) :
    (s = t → next cfg s = next cfg t) ∧
    (s.state_type = .Work →
      next cfg s =
        { s with
            cycles_completed := s.cycles_completed + 1,
            state_type :=
              if s.cycles_completed + 1 = cfg.cycles_before_long_break then
                .LongBreak
              else
                .ShortBreak }) ∧
    (s.state_type = .ShortBreak → next cfg s = { s with state_type := .Work }) ∧
    (s.state_type = .LongBreak → next cfg s = { s with state_type := .Work }) := by
  refine ⟨fun h => by rw [h], ?_, next_shortBreak cfg s, next_longBreak cfg s⟩
  intro hw
  rw [next_work cfg s hw]
  by_cases hc : s.cycles_completed + 1 = cfg.cycles_before_long_break
  · rw [if_pos hc, if_pos hc]
  · rw [if_neg hc, if_neg hc]

/-- C5 witness: the transition from the initial `Work` state under
`cycles_before_long_break = 2`. -/
theorem next_pure_transition_witness :
    next cfg2 initState =
      { initState with
          cycles_completed := initState.cycles_completed + 1,
          state_type :=
            if initState.cycles_completed + 1 = cfg2.cycles_before_long_break then
              .LongBreak
            else
              .ShortBreak } :=
  (next_pure_transition cfg2 initState initState).2.1 rfl

/-! ## C1/C2/C6: behaviour of the timed-wait loop -/

/-- The loop body never touches the alert counter: the notifier is called
only on line 146, after the loop. -/
lemma progressLoop_alerts (exitS pauseS : Nat → Bool) (er : Nat → Nat)
    (total_secs : Nat) :
    ∀ fuel k acc r,
      progressLoop exitS pauseS er total_secs fuel k acc = some r →
        r.alerts = acc.alerts := by
  intro fuel
  induction fuel with
  | zero =>
    intro k acc r h
    simp [progressLoop] at h
  | succ n ih =>
    intro k acc r h
    rw [progressLoop] at h
    by_cases he : exitS k
    · rw [if_pos he] at h
      cases h
      rfl
    · rw [if_neg he] at h
      by_cases hp : pauseS k
      · rw [if_pos hp] at h
        have hh := ih _ _ _ h
        exact hh
      · rw [if_neg hp] at h
        simp only at h
        by_cases hd : total_secs ≤ er k / 1000
        · rw [if_pos hd] at h
          cases h
          rfl
        · rw [if_neg hd] at h
          by_cases hs : acc.lastShown < er k / 1000
          · rw [if_pos hs] at h
            have hh := ih _ _ _ h
            exact hh
          · rw [if_neg hs] at h
            have hh := ih _ _ _ h
            exact hh

/-- C1 counterexample: with the exit flag already true when the wait begins,
`progress_duration` returns at once — but the notifier has still been invoked
(alert count 1, not 0), because `notifier.alert_state_change()` on line 146
runs unconditionally after the loop, on the early-exit path too. -/
theorem notifier_fires_on_early_exit_cex :
    (progress_duration (fun _ => true) (fun _ => false) erSys 5 10).map SimAcc.alerts =
      some 1 ∧ some 1 ≠ some (0 : Nat) := by
  exact ⟨rfl, by decide⟩

/-- C1 (amended): when the exit flag is observed true at the first check,
`progress_duration` returns without any sleep or status update — the
countdown is abandoned — but the notifier is nevertheless invoked exactly
once; indeed every terminating run, early-exited or completed, invokes the
notifier exactly once. -/
theorem progress_duration_exit_behavior (exitS pauseS : Nat → Bool)
    (er : Nat → Nat) (total_secs fuel : Nat) (r : SimAcc) :
    (exitS 0 = true →
      progress_duration exitS pauseS er total_secs (fuel + 1) =
        some { simInit with alerts := 1 }) ∧
    (progress_duration exitS pauseS er total_secs fuel = some r → r.alerts = 1) := by
  constructor
  · intro h0
    unfold progress_duration
    rw [progressLoop, if_pos h0]
    rfl
  · intro h
    unfold progress_duration at h
    cases hp : progressLoop exitS pauseS er total_secs fuel 0 simInit with
    | none => rw [hp] at h; simp at h
    | some a =>
      rw [hp] at h
      have ha := progressLoop_alerts exitS pauseS er total_secs fuel 0 simInit a hp
      have hr : r = { a with alerts := a.alerts + 1 } := (Option.some.inj h).symm
      rw [hr]
      simp [ha, simInit]

/-- C1 witness for the amended theorem: exit set before a 5-second phase. -/
theorem progress_duration_exit_behavior_witness :
    progress_duration (fun _ => true) (fun _ => false) erSys 5 9 =
      some { simInit with alerts := 1 } :=
  (progress_duration_exit_behavior (fun _ => true) (fun _ => false) erSys 5 8
    simInit).1 rfl

/-- C2: the pause-accounting bug at a concrete input.  A 5-second phase whose
pause flag is true for its first 50 ticks (5 s of wall-clock time) and then
released completes after a single additional unpaused tick: the loop measures
`elapsed = start.elapsed()`, which kept growing during the pause, so the
paused 5 s counted toward the phase.  The status sink was still invoked on
every one of the 51 ticks (50 of them paused), as the claim also states. -/
theorem progress_duration_pause_counts_elapsed :
    progress_duration (fun _ => false) (fun k => decide (k < 50)) erSys 5 60 =
      some { sleeps := List.replicate 51 tickMs, updates := 51, pausedTicks := 50,
             lastShown := 0, barPos := 0, alerts := 1 } ∧
    (51 : Nat) - 50 < 50 := by
  exact ⟨by decide, by decide⟩

/-- C6: the claimed deterministic-clock behaviour fails on the code because
line 133 computes `elapsed` with `start.elapsed()` — the system clock — and
not with the injected `clock.now()`.  Under `FakeClock` the simulated sleeps
never advance the measured elapsed time, so the number of recorded sleeps is
governed by the uncontrolled real-time schedule `er`: with real time
advancing 1 s per iteration the 5-second phase records only 5 sleeps summing
to 500 ms (not 5000 ± 100 ms), while the sum the claim expects arises only
under the system-clock schedule `erSys` (50 sleeps, 5000 ms).  The notifier
part holds: each terminating run alerts exactly once. -/
theorem progress_duration_fakeclock_real_elapsed :
    (progress_duration (fun _ => false) (fun _ => false) (fun k => 1000 * (k + 1)) 5 10 =
      some { sleeps := List.replicate 5 tickMs, updates := 5, pausedTicks := 0,
             lastShown := 4, barPos := 4, alerts := 1 }) ∧
    (List.replicate 5 tickMs).sum = 500 ∧
    ¬ (5 * 1000 - tickMs ≤ (List.replicate 5 tickMs).sum) ∧
    (progress_duration (fun _ => false) (fun _ => false) erSys 5 60 =
      some { sleeps := List.replicate 50 tickMs, updates := 50, pausedTicks := 0,
             lastShown := 4, barPos := 4, alerts := 1 }) ∧
    (List.replicate 50 tickMs).sum = 5000 := by
  refine ⟨by decide, by decide, by decide, by decide, by decide⟩

/-! ## C10: frame conditions of `progress_duration` and `next` -/

/-- C10: `progress_duration` takes `&self`, so `state_type` and
`cycles_completed` are identical when it returns; and `next` assigns only
`state_type` and `cycles_completed`, leaving the shared `pause` and `exit`
flags untouched. -/
theorem frame_progress_and_next (cfg : Config) (s : State) :
    ((next cfg s).pause = s.pause ∧ (next cfg s).exit = s.exit) ∧
    (∀ (exitS pauseS : Nat → Bool) (er : Nat → Nat) (total_secs fuel : Nat)
        (a : SimAcc) (s2 : State),
      progress_duration_st s exitS pauseS er total_secs fuel = some (a, s2) →
        s2.state_type = s.state_type ∧ s2.cycles_completed = s.cycles_completed) := by
  constructor
  · cases hs : s.state_type with
    | Work =>
      rw [next_work cfg s hs]
      by_cases hc : s.cycles_completed + 1 = cfg.cycles_before_long_break
      · rw [if_pos hc]; exact ⟨rfl, rfl⟩
      · rw [if_neg hc]; exact ⟨rfl, rfl⟩
    | ShortBreak => rw [next_shortBreak cfg s hs]; exact ⟨rfl, rfl⟩
    | LongBreak => rw [next_longBreak cfg s hs]; exact ⟨rfl, rfl⟩
  · intro exitS pauseS er total_secs fuel a s2 h
    unfold progress_duration_st at h
    cases hp : progress_duration exitS pauseS er total_secs fuel with
    | none => rw [hp] at h; simp at h
    | some a0 =>
      rw [hp] at h
      have h2 : (a0, s) = (a, s2) := Option.some.inj h
      have h3 : s = s2 := congrArg Prod.snd h2
      rw [← h3]
      exact ⟨rfl, rfl⟩

/-- C10 witness: concrete instantiation at the initial state with a 5-second
phase cancelled immediately by the exit flag. -/
theorem frame_progress_and_next_witness :
    (next cfg2 initState).pause = initState.pause ∧
      (initState.state_type = initState.state_type ∧
        initState.cycles_completed = initState.cycles_completed) :=
  ⟨(frame_progress_and_next cfg2 initState).1.1,
    (frame_progress_and_next cfg2 initState).2 (fun _ => true) (fun _ => false)
      erSys 5 3 { simInit with alerts := 1 } initState rfl⟩

/-! ## C7: the keyboard interface -/

/-- C7 counterexample: an uppercase `Q` key event is matched by neither
`KeyCode::Char('q')` nor the `'p' | 'P'` arm, so it neither sets the exit
flag nor stops the polling loop — the claim that `Q` requests exit fails. -/
theorem uppercase_q_ignored_cex :
    (handle_key_event (.char 'Q') { pause := false, exit := false }).flags.exit = false ∧
      (handle_key_event (.char 'Q') { pause := false, exit := false }).brk = false := by
  exact ⟨by decide, by decide⟩

/-- C7 (amended): lowercase `q` flips the exit flag (setting it from the
initial `false`) and breaks out of the polling loop; uppercase `Q` is
ignored entirely; `p` and `P` both flip the pause flag, keep polling, and
immediately refresh the status line showing the new pause state. -/
theorem key_handler_behavior (f : ListenerFlags) :
    (handle_key_event (.char 'q') f =
      { flags := { f with exit := !f.exit }, brk := true, refresh := none }) ∧
    (f.exit = false → (handle_key_event (.char 'q') f).flags.exit = true) ∧
    (handle_key_event (.char 'Q') f = { flags := f, brk := false, refresh := none }) ∧
    (∀ c, c = 'p' ∨ c = 'P' →
      handle_key_event (.char c) f =
        { flags := { f with pause := !f.pause }, brk := false,
          refresh := some (!f.pause) }) := by
  obtain ⟨p, e⟩ := f
  refine ⟨?_, ?_, ?_, ?_⟩
  · cases p <;> cases e <;> decide
  · cases p <;> cases e <;> first
      | (intro h; decide)
      | (intro h; exact Bool.noConfusion h)
  · cases p <;> cases e <;> decide
  · intro c hc
    rcases hc with rfl | rfl <;> cases p <;> cases e <;> decide

/-- C7 witness for the amended theorem: from the fresh flag state, `p` pauses
and refreshes with the new state, `q` sets exit. -/
theorem key_handler_behavior_witness :
    handle_key_event (.char 'p') { pause := false, exit := false } =
      { flags := { pause := true, exit := false }, brk := false,
        refresh := some true } ∧
    (handle_key_event (.char 'q') { pause := false, exit := false }).flags.exit = true := by
  have H := key_handler_behavior { pause := false, exit := false }
  exact ⟨H.2.2.2 'p' (Or.inl rfl), H.2.1 rfl⟩

/-! ## C8/C9: configuration parsing -/

/-- A key outside the ten recognized spellings falls to the final arm of
`parse_param`. -/
lemma parse_param_unknown (key : String) (vo : Option String)
    (hk : key ∉ knownFlags) :
    parse_param key vo = .error ("Unknown parameter: " ++ key) := by
  simp only [knownFlags, List.mem_cons, List.not_mem_nil, or_false, not_or] at hk
  obtain ⟨h1, h2, h3, h4, h5, h6, h7, h8, h9, h10⟩ := hk
  unfold parse_param
  rw [if_neg (not_or.mpr ⟨h1, h2⟩), if_neg (not_or.mpr ⟨h3, h4⟩),
    if_neg (not_or.mpr ⟨h5, h6⟩), if_neg (not_or.mpr ⟨h7, h8⟩),
    if_neg (not_or.mpr ⟨h9, h10⟩)]

/-- An unknown first flag makes `Config::build` fail with a message naming
that flag, whatever follows it. -/
lemma build_unknown (prog key : String) (rest : List String)
    (hk : key ∉ knownFlags) :
    build (prog :: key :: rest) = .error ("Unknown parameter: " ++ key) := by
  cases rest with
  | nil =>
    show build_go Config.new_default [key] = _
    unfold build_go
    rw [parse_param_unknown key none hk]
  | cons v rest2 =>
    show build_go Config.new_default (key :: v :: rest2) = _
    unfold build_go
    rw [parse_param_unknown key (some v) hk]

/-- A non-numeric value after `--work` makes `Config::build` fail with a
message naming the bad value. -/
lemma build_bad_value (prog v : String) (hv : parse_u64 v = none) :
    build [prog, "--work", v] = .error ("Failed to parse value: " ++ v) := by
  show build_go Config.new_default ["--work", v] = _
  unfold build_go
  have hpp : parse_param "--work" (some v) =
      (parse_value "--work" (some v)).map (fun n => .WorkDuration (n * 60)) := by
    unfold parse_param
    rw [if_neg (by decide), if_pos (by decide)]
  rw [hpp]
  simp [parse_value, hv, Except.map]

/-- A value-taking flag as last argument makes `Config::build` fail with a
message naming the flag whose value is missing. -/
lemma build_missing_value (prog kv : String) (hkv : kv ∈ valueFlags) :
    build [prog, kv] = .error ("Expected value for parameter: " ++ kv) := by
  simp only [valueFlags, List.mem_cons, List.not_mem_nil, or_false] at hkv
  rcases hkv with rfl | rfl | rfl | rfl | rfl | rfl | rfl | rfl <;> rfl

/-- C8: `--work 30 --cycles 6` (after the program name) parses to 1800 s of
work, 6 cycles and default break durations; an unknown flag errors naming the
flag; a non-numeric value errors naming the value; a trailing value-taking
flag errors naming the missing parameter. -/
theorem config_build_parse (prog key v kv : String) (rest : List String)
    (hk : key ∉ knownFlags) (hv : parse_u64 v = none) (hkv : kv ∈ valueFlags) :
    build ["pomodoro", "--work", "30", "--cycles", "6"] =
      .ok { work_duration := 1800, short_break_duration := 300,
            long_break_duration := 900, cycles_before_long_break := 6 } ∧
    build (prog :: key :: rest) = .error ("Unknown parameter: " ++ key) ∧
    build [prog, "--work", v] = .error ("Failed to parse value: " ++ v) ∧
    build [prog, kv] = .error ("Expected value for parameter: " ++ kv) :=
  ⟨rfl, build_unknown prog key rest hk, build_bad_value prog v hv,
    build_missing_value prog kv hkv⟩

/-- C8 witness: the three error shapes at concrete inputs. -/
theorem config_build_parse_witness :
    build ["p", "--bogus"] = .error ("Unknown parameter: " ++ "--bogus") ∧
      build ["p", "--work", "abc"] = .error ("Failed to parse value: " ++ "abc") ∧
      build ["p", "--cycles"] = .error ("Expected value for parameter: " ++ "--cycles") := by
  have H := config_build_parse "p" "--bogus" "abc" "--cycles" []
    (by decide) (by decide) (by decide)
  exact ⟨H.2.1, H.2.2.1, H.2.2.2⟩

/-- C9 counterexample: the argument list `["pomodoro", "--work", "-h"]`
contains the help flag, yet `Config::build` returns the parse error for the
value of `--work` — not the usage text — because `--work` consumes `-h` as
its value before the help arm is ever reached. -/
theorem help_flag_not_usage_text_cex :
    build ["pomodoro", "--work", "-h"] = .error "Failed to parse value: -h" ∧
      "-h" ∈ ["pomodoro", "--work", "-h"] ∧
      "Failed to parse value: -h" ≠ help_text := by
  exact ⟨rfl, by decide, by decide⟩

/-- The help spellings hit the first arm of `parse_param` whatever the value
argument is. -/
lemma parse_param_help_short (vo : Option String) :
    parse_param "-h" vo = .ok .Help := rfl

/-- The long help spelling likewise. -/
lemma parse_param_help_long (vo : Option String) :
    parse_param "--help" vo = .ok .Help := rfl

/-- If `parse_param` succeeds on a key whose value fails to parse as `u64`,
the result can only be `Help` (the sole arm that never forces the value). -/
lemma parse_param_ok_of_bad_value (key v : String) (hv : parse_u64 v = none)
    (p : ConfigParam) (h : parse_param key (some v) = .ok p) : p = .Help := by
  unfold parse_param at h
  split at h
  · exact (Except.ok.inj h).symm
  · split at h
    · simp [parse_value, hv, Except.map] at h
    · split at h
      · simp [parse_value, hv, Except.map] at h
      · split at h
        · simp [parse_value, hv, Except.map] at h
        · split at h
          · simp [parse_value, hv, Except.map] at h
          · simp at h

/-- Evaluation of `build_go` on `key :: v :: rest` when `parse_param` errors. -/
lemma build_go_cons_error (cfg : Config) (key v : String) (rest : List String)
    (e : String) (hp : parse_param key (some v) = .error e) :
    build_go cfg (key :: v :: rest) = .error e := by
  unfold build_go
  rw [hp]

/-- Evaluation of `build_go` on `key :: v :: rest` when `parse_param` yields `Help`. -/
lemma build_go_cons_help (cfg : Config) (key v : String) (rest : List String)
    (hp : parse_param key (some v) = .ok .Help) :
    build_go cfg (key :: v :: rest) = .error help_text := by
  unfold build_go
  rw [hp]

/-- Evaluation of `build_go` on `key :: v :: rest` when `parse_param` yields a non-help
parameter: fold it in and continue. -/
lemma build_go_cons_param (cfg : Config) (key v : String) (rest : List String)
    (p : ConfigParam) (hp : parse_param key (some v) = .ok p) (hnh : p ≠ .Help) :
    build_go cfg (key :: v :: rest) = build_go (applyParam cfg p) rest := by
  have hstep : build_go cfg (key :: v :: rest) =
      match parse_param key (some v) with
      | .error e => .error e
      | .ok .Help => .error help_text
      | .ok p => build_go (applyParam cfg p) rest := rfl
  rw [hstep, hp]
  cases p <;> first | rfl | exact absurd rfl hnh

/-- Whenever the argument list still to be consumed contains a help flag,
`build_go` cannot return `Ok`: either an earlier argument already errors, or
the help arm returns the usage text through the error channel. -/
lemma build_go_help_no_ok :
    ∀ (n : Nat) (l : List String), l.length ≤ n →
      ("-h" ∈ l ∨ "--help" ∈ l) →
      ∀ cfg cfg2, build_go cfg l ≠ .ok cfg2 := by
  intro n
  induction n with
  | zero =>
    intro l hl hm cfg cfg2
    have hnil : l = [] := List.length_eq_zero.mp (Nat.le_zero.mp hl)
    subst hnil
    simp at hm
  | succ n ih =>
    intro l hl hm cfg cfg2
    rcases l with _ | ⟨key, _ | ⟨v, rest⟩⟩
    · simp at hm
    · have hkey : key = "-h" ∨ key = "--help" := by
        rcases hm with hm | hm
        · exact Or.inl (List.mem_singleton.mp hm).symm
        · exact Or.inr (List.mem_singleton.mp hm).symm
      rcases hkey with rfl | rfl
      · intro hc
        rw [show build_go cfg ["-h"] = .error help_text from rfl] at hc
        exact Except.noConfusion hc
      · intro hc
        rw [show build_go cfg ["--help"] = .error help_text from rfl] at hc
        exact Except.noConfusion hc
    · cases hp : parse_param key (some v) with
      | error e =>
        rw [build_go_cons_error cfg key v rest e hp]
        simp
      | ok p =>
        by_cases hnh : p = ConfigParam.Help
        · subst hnh
          rw [build_go_cons_help cfg key v rest hp]
          simp
        · rw [build_go_cons_param cfg key v rest p hp hnh]
          have hlen : rest.length ≤ n := by
            simp only [List.length_cons] at hl
            omega
          have hkey2 : key ≠ "-h" ∧ key ≠ "--help" := by
            constructor <;> intro hk <;> subst hk
            · rw [parse_param_help_short (some v)] at hp
              exact hnh (Except.ok.inj hp).symm
            · rw [parse_param_help_long (some v)] at hp
              exact hnh (Except.ok.inj hp).symm
          have hval : v ≠ "-h" ∧ v ≠ "--help" := by
            constructor <;> intro hv2 <;> subst hv2
            · exact hnh (parse_param_ok_of_bad_value key _ (by decide) p hp)
            · exact hnh (parse_param_ok_of_bad_value key _ (by decide) p hp)
          have hrest : "-h" ∈ rest ∨ "--help" ∈ rest := by
            rcases hm with hm | hm
            · rcases List.mem_cons.mp hm with h1 | hm2
              · exact absurd h1.symm hkey2.1
              · rcases List.mem_cons.mp hm2 with h2 | h3
                · exact absurd h2.symm hval.1
                · exact Or.inl h3
            · rcases List.mem_cons.mp hm with h1 | hm2
              · exact absurd h1.symm hkey2.2
              · rcases List.mem_cons.mp hm2 with h2 | h3
                · exact absurd h2.symm hval.2
                · exact Or.inr h3
          exact ih rest hlen hrest (applyParam cfg p) cfg2

/-- C9 (amended): a help flag found in flag position as the first argument
short-circuits `Config::build` to the usage text through the error channel,
regardless of everything after it; and whenever a help flag occurs anywhere
among the arguments, `build` never returns `Ok` — though when the help flag
is consumed as another flag's value, or a bad flag precedes it, the error is
a configuration-error message rather than the usage text — so no timer is
ever started on a help request. -/
theorem help_flag_always_errors :
    (∀ (prog : String) (rest : List String),
      build (prog :: "-h" :: rest) = .error help_text) ∧
    (∀ (prog : String) (rest : List String),
      build (prog :: "--help" :: rest) = .error help_text) ∧
    (∀ (args : List String) (cfg : Config),
      ("-h" ∈ args.drop 1 ∨ "--help" ∈ args.drop 1) → build args ≠ .ok cfg) := by
  refine ⟨?_, ?_, ?_⟩
  · intro prog rest
    cases rest <;> rfl
  · intro prog rest
    cases rest <;> rfl
  · intro args cfg hm
    exact build_go_help_no_ok (args.drop 1).length (args.drop 1) le_rfl hm
      Config.new_default cfg

/-- C9 witness for the amended theorem: help first short-circuits past valid
flags; help after another flag's missing value still prevents `Ok`. -/
theorem help_flag_always_errors_witness :
    build ["pomodoro", "-h", "--work", "30"] = .error help_text ∧
      build ["pomodoro", "--cycles", "--help"] ≠ .ok Config.new_default :=
  ⟨help_flag_always_errors.1 "pomodoro" ["--work", "30"],
    help_flag_always_errors.2.2 ["pomodoro", "--cycles", "--help"]
      Config.new_default (by decide)⟩

/-! ## Sanity checks of the embedding

These mirror the repository's own unit tests (the `mod test` of pomodoro.rs
and the `mod tests` of conf.rs) plus one direct run of the timed-wait loop
under the system-clock schedule. -/

example : (next cfg2 initState).state_type = .ShortBreak := by decide
example : (next cfg2 initState).cycles_completed = 1 := by decide
example : (trace cfg2 3).state_type = .LongBreak := by decide
example : (trace cfg2 3).cycles_completed = 2 := by decide
example : (trace cfg2 2).state_type = .Work := by decide
example :
    progress_duration (fun _ => false) (fun _ => false) erSys 5 60 =
      some { sleeps := List.replicate 50 tickMs, updates := 50, pausedTicks := 0,
             lastShown := 4, barPos := 4, alerts := 1 } := by
  decide
example : build ["pomodorro-rust"] = .ok Config.new_default := by rfl
example :
    build ["pomodorro-rust", "--work", "30", "--short-break", "10",
           "--long-break", "20", "--cycles", "6"] =
      .ok { work_duration := 1800, short_break_duration := 600,
            long_break_duration := 1200, cycles_before_long_break := 6 } := by rfl
example : build ["pomodorro-rust", "-h", "-w", "35"] = .error help_text := by rfl
example : build ["pomodorro-rust", "--work"] =
    .error "Expected value for parameter: --work" := by rfl
example : build ["pomodorro-rust", "--work", "abc"] =
    .error "Failed to parse value: abc" := by rfl
example : build ["pomodorro-rust", "--unknown", "10"] =
    .error "Unknown parameter: --unknown" := by rfl
